import Mathlib

/-!
Verification development for the Black-Scholes options-strategy backtesting
core of the daily stock analysis repository
(src/modules/backtester.py and src/modules/backtester_entry_exit.py).

Real-number arithmetic of the source (Python floats) is embedded as exact
rationals; the transcendental library functions the source calls
(np.exp, np.log, np.sqrt, math.erf) are abstracted as a record of functions
`RealFuns`, so every definition stays computable and claims that do not
depend on the analytic properties of those functions hold for all of them.
-/

/-- The transcendental functions the source calls (np.exp, np.log, np.sqrt,
math.erf), abstracted so the embedding stays in exact rational arithmetic. -/
structure RealFuns where
  exp : ℚ → ℚ
  log : ℚ → ℚ
  sqrt : ℚ → ℚ
  erf : ℚ → ℚ

/-- Option type tag, `option_type` in the source. -/
inductive OptionType
  | call
  | put
deriving DecidableEq, Repr

/-- `_norm_cdf` from backtester.py: `0.5 * (1 + math.erf(x / math.sqrt(2)))`. -/
def norm_cdf (F : RealFuns) (x : ℚ) : ℚ :=
  1/2 * (1 + F.erf (x / F.sqrt 2))

/-- `_bs_price` from backtester.py. Degenerate inputs fall back to intrinsic
value; otherwise the closed-form Black-Scholes formula. -/
def bs_price (F : RealFuns) (S K T r sigma : ℚ) (ot : OptionType) : ℚ :=
  if T ≤ 0 ∨ sigma ≤ 0 ∨ S ≤ 0 ∨ K ≤ 0 then
    match ot with
    | .call => max 0 (S - K)
    | .put => max 0 (K - S)
  else
    let d1 := (F.log (S / K) + (r + sigma ^ 2 / 2) * T) / (sigma * F.sqrt T)
    let d2 := d1 - sigma * F.sqrt T
    match ot with
    | .call => S * norm_cdf F d1 - K * F.exp (-r * T) * norm_cdf F d2
    | .put => K * F.exp (-r * T) * norm_cdf F (-d2) - S * norm_cdf F (-d1)

/-- Intrinsic value of an option, as the spec words it:
`max(0, S−K)` for a call, `max(0, K−S)` for a put. -/
def intrinsicValue (ot : OptionType) (S K : ℚ) : ℚ :=
  match ot with
  | .call => max 0 (S - K)
  | .put => max 0 (K - S)

/-- A concrete instance of the abstract transcendental functions, used to
instantiate universally quantified theorems on concrete inputs. -/
def Ftest : RealFuns := ⟨fun _ => 1, fun _ => 0, fun _ => 0, fun _ => 0⟩

/-- The seven options strategy names dispatched on by backtester.py. -/
inductive Strategy
  | COVERED_CALL
  | CASH_SECURED_PUT
  | BULL_CALL_SPREAD
  | BEAR_CALL_SPREAD
  | IRON_CONDOR
  | PROTECTIVE_PUT
  | LONG_STRADDLE
deriving DecidableEq, Repr

/-- One indicator row of the backtester.py data frame as the walk-forward
loop reads it. A pandas NaN cell is embedded as `none` (backtester.py checks
every indicator it consumes for NaN before use); `Close` is always present. -/
structure Row where
  close : ℚ
  rsi : Option ℚ
  ema9 : Option ℚ
  ema20 : Option ℚ
  sma50 : Option ℚ
  bbWidth : Option ℚ
  hvol : Option ℚ
  vwap : Option ℚ
  macdHist : Option ℚ
  atr : Option ℚ
deriving DecidableEq, Repr

/-- True iff the optional cell is a defined number satisfying `p`; embeds the
source's `v is not None and not np.isnan(v) and p v` guards. -/
def cellSat (o : Option ℚ) (p : ℚ → Bool) : Bool :=
  match o with
  | some v => p v
  | none => false

/-- `_check_entry_conditions` from backtester.py: per-strategy entry
predicate over a day's indicator row. The `prev_row` argument exists in the
source's signature but is read by none of the seven branches. -/
def check_entry_conditions (strat : Strategy) (row _prevRow : Row) : Bool :=
  match row.rsi, row.ema9, row.ema20 with
  | some rsi, some ema9, some ema20 =>
    match strat with
    | .COVERED_CALL =>
        cellSat row.sma50 (fun sma50 => decide (row.close > sma50)) &&
        decide (40 ≤ rsi) && decide (rsi ≤ 60) && decide (ema9 > ema20)
    | .CASH_SECURED_PUT =>
        decide (rsi < 40) && cellSat row.hvol (fun hv => decide (hv > 3/10))
    | .BULL_CALL_SPREAD =>
        decide (ema9 > ema20) && decide (rsi < 65) &&
        cellSat row.vwap (fun vw => decide (row.close > vw)) &&
        cellSat row.macdHist (fun mh => decide (mh > 0))
    | .BEAR_CALL_SPREAD =>
        decide (ema9 < ema20) && decide (rsi > 65) &&
        cellSat row.hvol (fun hv => decide (hv > 4/10))
    | .IRON_CONDOR =>
        cellSat row.bbWidth (fun bw => decide (bw < 6/100)) &&
        decide (40 ≤ rsi) && decide (rsi ≤ 60) &&
        cellSat row.hvol (fun hv => decide (4/10 ≤ hv) && decide (hv ≤ 7/10))
    | .PROTECTIVE_PUT =>
        decide (rsi > 60) &&
        cellSat row.sma50 (fun sma50 => decide (row.close > sma50))
    | .LONG_STRADDLE =>
        cellSat row.bbWidth (fun bw => decide (bw < 4/100)) &&
        cellSat row.hvol (fun hv => decide (hv < 5/10))
  | _, _, _ => false

/-- Result record of `_simulate_strategy_pnl`. -/
structure PnlResult where
  pnl : ℚ
  pnlPct : ℚ
deriving DecidableEq, Repr

/-- Per-strategy leg pricing and netting of `_simulate_strategy_pnl`,
parameterized by the entry and exit times-to-expiry it computes first. -/
def strategy_legs_pnl (F : RealFuns) (strat : Strategy)
    (entryPrice exitPrice sigma Tentry Texit r : ℚ) : Option PnlResult :=
  match strat with
  | .COVERED_CALL =>
      let sellStrike := entryPrice * (103/100)
      let premiumIn := bs_price F entryPrice sellStrike Tentry r sigma .call
      let premiumOut := bs_price F exitPrice sellStrike Texit r sigma .call
      let stockPnl := exitPrice - entryPrice
      let optionPnl := premiumIn - premiumOut
      let totalPnl := stockPnl + optionPnl
      some ⟨totalPnl, totalPnl / entryPrice * 100⟩
  | .CASH_SECURED_PUT =>
      let sellStrike := entryPrice
      let premiumIn := bs_price F entryPrice sellStrike Tentry r sigma .put
      let premiumOut := bs_price F exitPrice sellStrike Texit r sigma .put
      let pnl := premiumIn - premiumOut
      some ⟨pnl, pnl / sellStrike * 100⟩
  | .BULL_CALL_SPREAD =>
      let buyStrike := entryPrice
      let sellStrike := entryPrice * (105/100)
      let buyPremIn := bs_price F entryPrice buyStrike Tentry r sigma .call
      let sellPremIn := bs_price F entryPrice sellStrike Tentry r sigma .call
      let buyPremOut := bs_price F exitPrice buyStrike Texit r sigma .call
      let sellPremOut := bs_price F exitPrice sellStrike Texit r sigma .call
      let netDebit := buyPremIn - sellPremIn
      let netExit := buyPremOut - sellPremOut
      let pnl := netExit - netDebit
      some ⟨pnl, pnl / max netDebit (1/100) * 100⟩
  | .BEAR_CALL_SPREAD =>
      let sellStrike := entryPrice * (101/100)
      let buyStrike := entryPrice * (105/100)
      let sellPremIn := bs_price F entryPrice sellStrike Tentry r sigma .call
      let buyPremIn := bs_price F entryPrice buyStrike Tentry r sigma .call
      let sellPremOut := bs_price F exitPrice sellStrike Texit r sigma .call
      let buyPremOut := bs_price F exitPrice buyStrike Texit r sigma .call
      let netCredit := sellPremIn - buyPremIn
      let netExitCost := sellPremOut - buyPremOut
      let pnl := netCredit - netExitCost
      some ⟨pnl, pnl / max netCredit (1/100) * 100⟩
  | .IRON_CONDOR =>
      let sellCallStrike := entryPrice * (105/100)
      let buyCallStrike := entryPrice * (108/100)
      let sellPutStrike := entryPrice * (95/100)
      let buyPutStrike := entryPrice * (92/100)
      let scIn := bs_price F entryPrice sellCallStrike Tentry r sigma .call
      let bcIn := bs_price F entryPrice buyCallStrike Tentry r sigma .call
      let spIn := bs_price F entryPrice sellPutStrike Tentry r sigma .put
      let bpIn := bs_price F entryPrice buyPutStrike Tentry r sigma .put
      let scOut := bs_price F exitPrice sellCallStrike Texit r sigma .call
      let bcOut := bs_price F exitPrice buyCallStrike Texit r sigma .call
      let spOut := bs_price F exitPrice sellPutStrike Texit r sigma .put
      let bpOut := bs_price F exitPrice buyPutStrike Texit r sigma .put
      let netCredit := (scIn + spIn) - (bcIn + bpIn)
      let netExit := (scOut + spOut) - (bcOut + bpOut)
      let pnl := netCredit - netExit
      some ⟨pnl, pnl / max netCredit (1/100) * 100⟩
  | .PROTECTIVE_PUT =>
      let buyStrike := entryPrice * (95/100)
      let premIn := bs_price F entryPrice buyStrike Tentry r sigma .put
      let premOut := bs_price F exitPrice buyStrike Texit r sigma .put
      let stockPnl := exitPrice - entryPrice
      let optionPnl := premOut - premIn
      let totalPnl := stockPnl + optionPnl
      some ⟨totalPnl, totalPnl / entryPrice * 100⟩
  | .LONG_STRADDLE =>
      let strike := entryPrice
      let callIn := bs_price F entryPrice strike Tentry r sigma .call
      let putIn := bs_price F entryPrice strike Tentry r sigma .put
      let callOut := bs_price F exitPrice strike Texit r sigma .call
      let putOut := bs_price F exitPrice strike Texit r sigma .put
      let totalDebit := callIn + putIn
      let totalExit := callOut + putOut
      let pnl := totalExit - totalDebit
      some ⟨pnl, pnl / max totalDebit (1/100) * 100⟩

/-- `_simulate_strategy_pnl` from backtester.py, with the source's exit time
`T_exit = max(1/365, T_entry − target_dte/365·0.6)`. -/
def simulate_strategy_pnl (F : RealFuns) (strat : Strategy)
    (entryPrice exitPrice sigma : ℚ) (targetDte : ℕ) (r : ℚ) :
    Option PnlResult :=
  let Tentry : ℚ := (targetDte : ℚ) / 365
  let Texit : ℚ := max (1/365) (Tentry - ((targetDte : ℚ) / 365 * (6/10)))
  strategy_legs_pnl F strat entryPrice exitPrice sigma Tentry Texit r

/-- Modelled from the spec's wording of the exit-time heuristic:
identical legs, but `T_exit = max(1/365, T_entry·0.4)` written as the spec
states it; compared with `simulate_strategy_pnl` for C5. -/
def simulate_strategy_pnl_specT (F : RealFuns) (strat : Strategy)
    (entryPrice exitPrice sigma : ℚ) (targetDte : ℕ) (r : ℚ) :
    Option PnlResult :=
  let Tentry : ℚ := (targetDte : ℚ) / 365
  let Texit : ℚ := max (1/365) (Tentry * (4/10))
  strategy_legs_pnl F strat entryPrice exitPrice sigma Tentry Texit r

/-- One completed trade of backtester.py's walk-forward loop. -/
structure Trade where
  entryPrice : ℚ
  exitPrice : ℚ
  holdDays : ℕ
  pnl : ℚ
  pnlPct : ℚ
deriving DecidableEq, Repr

instance : Inhabited Trade := ⟨⟨0, 0, 0, 0, 0⟩⟩

/-- Mutable loop state of backtester.py's walk-forward simulation. -/
structure BTState where
  trades : List Trade
  inTrade : Bool
  entryPrice : ℚ
  entrySigma : ℚ
  holdDays : ℕ
  totalSignals : ℕ
deriving DecidableEq, Repr

/-- Initial walk-forward state: no trades, FLAT, zero counters. -/
def initBT : BTState := ⟨[], false, 0, 0, 0, 0⟩

/-- The strategy-specific RSI reversal exit check of backtester.py. The
source guards with Python truthiness (`row.get("RSI") and ...`), so an RSI
of exactly 0 never triggers it; a NaN RSI (here `none`) is truthy but is
then rejected by the explicit isnan check. -/
def reversal_exit (strat : Strategy) (row : Row) : Bool :=
  match strat with
  | .BULL_CALL_SPREAD | .COVERED_CALL =>
      cellSat row.rsi (fun rsi => decide (rsi ≠ 0) && decide (rsi > 70))
  | .BEAR_CALL_SPREAD =>
      cellSat row.rsi (fun rsi => decide (rsi ≠ 0) && decide (rsi < 35))
  | _ => false

/-- One iteration of backtester.py's walk-forward loop body
(lines 325–367): entry check with signal counting and the σ>0.05 sanity
floor when FLAT; holding-day increment, exit check, P&L simulation and
trade emission when in a position. The source also records a write-only
`entry_day`, omitted here because nothing ever reads it. -/
def btStep (F : RealFuns) (strat : Strategy) (targetDte : ℕ)
    (s : BTState) (prevRow row : Row) : BTState :=
  if !s.inTrade then
    if check_entry_conditions strat row prevRow then
      let s1 := { s with totalSignals := s.totalSignals + 1 }
      let sigma := match row.hvol with
        | some hv => hv
        | none => 3/10
      if sigma > 5/100 then
        { s1 with inTrade := true, entryPrice := row.close,
                  entrySigma := sigma, holdDays := 0 }
      else s1
    else s
  else
    let holdDays := s.holdDays + 1
    let shouldExit := decide (holdDays ≥ targetDte) || reversal_exit strat row
    if shouldExit then
      match simulate_strategy_pnl F strat s.entryPrice row.close
          s.entrySigma targetDte (5/100) with
      | some res =>
          { s with
              trades := s.trades ++
                [⟨s.entryPrice, row.close, holdDays, res.pnl, res.pnlPct⟩],
              inTrade := false, holdDays := holdDays }
      | none => { s with inTrade := false, holdDays := holdDays }
    else { s with holdDays := holdDays }

/-- backtester.py's `for i in range(1, len(data))` loop: each day is
processed with the previous day's row alongside it. -/
def btWalk (F : RealFuns) (strat : Strategy) (targetDte : ℕ) :
    BTState → Row → List Row → BTState
  | s, _, [] => s
  | s, prev, row :: rest =>
      btWalk F strat targetDte (btStep F strat targetDte s prev row) row rest

/-- Run the walk-forward loop over a full (post-warm-up) row list; the first
row only ever serves as the previous day of the second. -/
def btRun (F : RealFuns) (strat : Strategy) (targetDte : ℕ)
    (rows : List Row) : BTState :=
  match rows with
  | [] => initBT
  | r0 :: rest => btWalk F strat targetDte initBT r0 rest

/-- One post-warm-up indicator row as backtester_entry_exit.py's loop reads
it. After `dropna(subset=["RSI","EMA_9","EMA_20","VWAP"])` every consumed
column is a defined number, so the loop's in-body NaN re-check
(`if np.isnan(rsi) or np.isnan(vwap) or np.isnan(ema9): continue`) is
unreachable and the fields are plain rationals. -/
structure EERow where
  close : ℚ
  rsi : ℚ
  vwap : ℚ
  ema9 : ℚ
  ema20 : ℚ
deriving DecidableEq, Repr

/-- One completed trade of backtester_entry_exit.py; `exitSignal` is true
for `exit_reason == "signal"` and false for `"max_hold"`. -/
structure EETrade where
  entryPrice : ℚ
  exitPrice : ℚ
  holdDays : ℕ
  pnl : ℚ
  pnlPct : ℚ
  exitSignal : Bool
deriving DecidableEq, Repr

instance : Inhabited EETrade := ⟨⟨0, 0, 0, 0, 0, false⟩⟩

/-- Mutable loop state of backtester_entry_exit.py's walk-forward loop. -/
structure EEState where
  trades : List EETrade
  inPos : Bool
  entryPrice : ℚ
  holdDays : ℕ
deriving DecidableEq, Repr

/-- Initial entry/exit loop state: no trades, FLAT. -/
def initEE : EEState := ⟨[], false, 0, 0⟩

/-- One iteration of backtester_entry_exit.py's loop body (lines 81–121):
entry on RSI<35 AND price<VWAP AND a strict EMA9/EMA20 upward crossover;
exit on the reverse signal or on the holding cap. -/
def eeStep (maxHoldDays : ℕ) (s : EEState) (prev row : EERow) : EEState :=
  if !s.inPos then
    let emaCrossoverUp :=
      decide (prev.ema9 < prev.ema20) && decide (row.ema9 > row.ema20)
    if decide (row.rsi < 35) && decide (row.close < row.vwap) &&
        emaCrossoverUp then
      { s with inPos := true, entryPrice := row.close, holdDays := 0 }
    else s
  else
    let holdDays := s.holdDays + 1
    let emaCrossoverDown :=
      decide (prev.ema9 > prev.ema20) && decide (row.ema9 < row.ema20)
    let exitSignal :=
      decide (row.rsi > 65) && decide (row.close > row.vwap) &&
        emaCrossoverDown
    if exitSignal || decide (holdDays ≥ maxHoldDays) then
      let pnl := row.close - s.entryPrice
      { s with
          trades := s.trades ++
            [⟨s.entryPrice, row.close, holdDays, pnl,
              pnl / s.entryPrice * 100, exitSignal⟩],
          inPos := false, holdDays := holdDays }
    else { s with holdDays := holdDays }

/-- backtester_entry_exit.py's `for i in range(1, len(data))` loop. -/
def eeWalk (maxHoldDays : ℕ) : EEState → EERow → List EERow → EEState
  | s, _, [] => s
  | s, prev, row :: rest =>
      eeWalk maxHoldDays (eeStep maxHoldDays s prev row) row rest

/-- Run the entry/exit loop over a full (post-warm-up) row list. -/
def eeRun (maxHoldDays : ℕ) (rows : List EERow) : EEState :=
  match rows with
  | [] => initEE
  | r0 :: rest => eeWalk maxHoldDays initEE r0 rest

/-- Python's bankers-rounding `round(x)` on an exact rational. -/
def roundHalfEven (q : ℚ) : ℤ :=
  let n := ⌊q⌋
  let frac := q - n
  if frac < 1/2 then n
  else if 1/2 < frac then n + 1
  else if n % 2 = 0 then n else n + 1

/-- Python's `round(x, d)`. -/
def roundTo (d : ℕ) (q : ℚ) : ℚ :=
  (roundHalfEven (q * 10 ^ d) : ℚ) / 10 ^ d

/-- A profit factor is a rational or the `float("inf")` sentinel. -/
inductive ProfitFactor
  | val (q : ℚ)
  | inf
deriving DecidableEq, Repr

/-- `wins = [t for t in trades if t["pnl"] > 0]`. -/
def winsOf (trades : List Trade) : List Trade :=
  trades.filter (fun t => decide (t.pnl > 0))

/-- `losses = [t for t in trades if t["pnl"] <= 0]`. -/
def lossesOf (trades : List Trade) : List Trade :=
  trades.filter (fun t => decide (t.pnl ≤ 0))

/-- `gross_profit = sum(t["pnl"] for t in wins) if wins else 0`. -/
def grossProfitOf (trades : List Trade) : ℚ :=
  ((winsOf trades).map Trade.pnl).sum

/-- `gross_loss = abs(sum(t["pnl"] for t in losses)) if losses else 0`. -/
def grossLossOf (trades : List Trade) : ℚ :=
  |((lossesOf trades).map Trade.pnl).sum|

/-- `np.cumsum` on a list. -/
def cumsumL (l : List ℚ) : List ℚ :=
  (l.scanl (· + ·) 0).tail

/-- `np.maximum.accumulate` on a list. -/
def runningMaxL : List ℚ → List ℚ
  | [] => []
  | x :: xs => xs.scanl max x

/-- `np.min` with the source's `if len(...) > 0 else 0` guard. -/
def minListD : List ℚ → ℚ
  | [] => 0
  | x :: xs => xs.foldl min x

/-- The numeric fields of the backtester.py result record (its constant
label strings — ticker, strategy, period, note — carry no logic and are
kept out of the record). -/
structure BTStats where
  totalSignals : ℕ
  tradesTaken : ℕ
  wins : ℕ
  losses : ℕ
  winRate : ℚ
  avgReturnPct : ℚ
  maxDrawdownPct : ℚ
  profitFactor : ProfitFactor
  avgHoldingDays : ℚ
deriving DecidableEq, Repr

/-- Aggregation of backtester.py (lines 369–414): zero record when no
trades, else win/loss split, drawdown from cumulative PnL, and the rounded
summary statistics. -/
def aggregateBT (totalSignals : ℕ) (trades : List Trade) : BTStats :=
  if trades.isEmpty then
    ⟨totalSignals, 0, 0, 0, 0, 0, 0, .val 0, 0⟩
  else
    let wins := winsOf trades
    let losses := lossesOf trades
    let grossProfit := grossProfitOf trades
    let grossLoss := grossLossOf trades
    let cumPnl := cumsumL (trades.map Trade.pnl)
    let drawdowns := List.zipWith (· - ·) cumPnl (runningMaxL cumPnl)
    let maxDd := minListD drawdowns
    let maxDdPct := maxDd / (trades.headI).entryPrice * 100
    ⟨totalSignals, trades.length, wins.length, losses.length,
     (wins.length : ℚ) / (trades.length : ℚ),
     roundTo 1 ((trades.map Trade.pnlPct).sum / (trades.length : ℚ)),
     roundTo 1 maxDdPct,
     if grossLoss > 0 then .val (roundTo 2 (grossProfit / grossLoss))
     else .inf,
     roundTo 0 ((trades.map (fun t => (t.holdDays : ℚ))).sum /
       (trades.length : ℚ))⟩

/-- `wins` filter of backtester_entry_exit.py. -/
def eeWinsOf (trades : List EETrade) : List EETrade :=
  trades.filter (fun t => decide (t.pnl > 0))

/-- `losses` filter of backtester_entry_exit.py. -/
def eeLossesOf (trades : List EETrade) : List EETrade :=
  trades.filter (fun t => decide (t.pnl ≤ 0))

/-- `gross_profit` of backtester_entry_exit.py. -/
def eeGrossProfitOf (trades : List EETrade) : ℚ :=
  ((eeWinsOf trades).map EETrade.pnl).sum

/-- `gross_loss` of backtester_entry_exit.py. -/
def eeGrossLossOf (trades : List EETrade) : ℚ :=
  |((eeLossesOf trades).map EETrade.pnl).sum|

/-- The numeric fields of the backtester_entry_exit.py result record. -/
structure EEStats where
  totalSignals : ℕ
  tradesTaken : ℕ
  wins : ℕ
  losses : ℕ
  winRate : ℚ
  avgReturnPct : ℚ
  maxDrawdownPct : ℚ
  profitFactor : ProfitFactor
  avgHoldingDays : ℚ
  signalExits : ℕ
  timeoutExits : ℕ
deriving DecidableEq, Repr

/-- Aggregation of backtester_entry_exit.py (lines 123–171); here
`total_signals` is reported as the number of trades taken. -/
def aggregateEE (trades : List EETrade) : EEStats :=
  if trades.isEmpty then
    ⟨0, 0, 0, 0, 0, 0, 0, .val 0, 0, 0, 0⟩
  else
    let wins := eeWinsOf trades
    let losses := eeLossesOf trades
    let grossProfit := eeGrossProfitOf trades
    let grossLoss := eeGrossLossOf trades
    let cumPnl := cumsumL (trades.map EETrade.pnl)
    let drawdowns := List.zipWith (· - ·) cumPnl (runningMaxL cumPnl)
    let maxDd := minListD drawdowns
    let maxDdPct := maxDd / (trades.headI).entryPrice * 100
    ⟨trades.length, trades.length, wins.length, losses.length,
     (wins.length : ℚ) / (trades.length : ℚ),
     roundTo 1 ((trades.map EETrade.pnlPct).sum / (trades.length : ℚ)),
     roundTo 1 maxDdPct,
     if grossLoss > 0 then .val (roundTo 2 (grossProfit / grossLoss))
     else .inf,
     roundTo 0 ((trades.map (fun t => (t.holdDays : ℚ))).sum /
       (trades.length : ℚ)),
     (trades.filter (fun t => t.exitSignal)).length,
     (trades.filter (fun t => !t.exitSignal)).length⟩

/-- One fetched OHLCV bar. backtester code reads High, Low, Close, Volume;
Open is fetched but unused. -/
structure Bar where
  openPrice : ℚ
  high : ℚ
  low : ℚ
  close : ℚ
  volume : ℚ
deriving DecidableEq, Repr

/-- Recursive tail of `ewm(span, adjust=False).mean()`. -/
def ewmAux (alpha prev : ℚ) : List ℚ → List ℚ
  | [] => []
  | x :: xs =>
      let y := alpha * x + (1 - alpha) * prev
      y :: ewmAux alpha y xs

/-- pandas `ewm(span=s, adjust=False).mean()`: seeded by the first value,
smoothing factor 2/(s+1). -/
def ewmMean (span : ℕ) : List ℚ → List ℚ
  | [] => []
  | x :: xs => x :: ewmAux (2 / ((span : ℚ) + 1)) x xs

/-- pandas `.diff()`: undefined at index 0, consecutive difference after. -/
def diffL : List ℚ → List (Option ℚ)
  | [] => []
  | x :: xs => none :: List.zipWith (fun a b => some (b - a)) (x :: xs) xs

/-- pandas `rolling(window=w, min_periods=w).f()` (every rolling call in the
two backtester modules uses min_periods equal to the window, explicitly or
by default): defined at index i iff a full window of defined values ends
there. -/
def rollingApply (w : ℕ) (f : List ℚ → ℚ) (xs : List (Option ℚ)) :
    List (Option ℚ) :=
  (List.range xs.length).map (fun i =>
    if w ≤ i + 1 then
      let win := (xs.drop (i + 1 - w)).take w
      if win.all Option.isSome then some (f (win.filterMap id)) else none
    else none)

/-- Arithmetic mean of a window. -/
def meanL (l : List ℚ) : ℚ := l.sum / (l.length : ℚ)

/-- pandas sample standard deviation (ddof=1) of a window, via the abstract
square root. -/
def sampleStd (F : RealFuns) (l : List ℚ) : ℚ :=
  let m := meanL l
  F.sqrt ((l.map (fun x => (x - m) ^ 2)).sum / ((l.length : ℚ) - 1))

/-- `_compute_rsi` (identical in both backtester modules), period 14:
Wilder-style gains/losses, 14-bar rolling means, `rs` with a zero average
loss replaced by NaN, `RSI = 100 − 100/(1+rs)`. -/
def compute_rsi (closeL : List ℚ) : List (Option ℚ) :=
  let delta := diffL closeL
  let gain := delta.map (fun d =>
    match d with
    | some v => if v > 0 then v else 0
    | none => 0)
  let loss := delta.map (fun d =>
    match d with
    | some v => if v < 0 then -v else 0
    | none => 0)
  let avgGain := rollingApply 14 meanL (gain.map some)
  let avgLoss := rollingApply 14 meanL (loss.map some)
  let rs := List.zipWith (fun ag al =>
    match ag, al with
    | some a, some l => if l = 0 then none else some (a / l)
    | _, _ => none) avgGain avgLoss
  rs.map (Option.map (fun r => 100 - 100 / (1 + r)))

/-- `_compute_historical_vol` from backtester.py: 20-bar rolling standard
deviation of daily log returns, annualized by √252. -/
def compute_historical_vol (F : RealFuns) (closeL : List ℚ) :
    List (Option ℚ) :=
  let logReturns : List (Option ℚ) :=
    match closeL with
    | [] => []
    | x :: xs =>
        none :: List.zipWith (fun a b => some (F.log (b / a))) (x :: xs) xs
  (rollingApply 20 (sampleStd F) logReturns).map
    (Option.map (fun s => s * F.sqrt 252))

/-- The true-range series of `_compute_atr`: pandas' row-wise max skips the
NaN shifted-close terms at index 0, leaving high−low there. -/
def trueRangeL (highL lowL closeL : List ℚ) : List ℚ :=
  (List.range highL.length).map (fun i =>
    let h := highL.getD i 0
    let l := lowL.getD i 0
    if i = 0 then h - l
    else
      let pc := closeL.getD (i - 1) 0
      max (h - l) (max |h - pc| |l - pc|))

/-- `_compute_atr` from backtester.py: 14-bar rolling mean of true range. -/
def compute_atr (highL lowL closeL : List ℚ) : List (Option ℚ) :=
  rollingApply 14 meanL ((trueRangeL highL lowL closeL).map some)

/-- The 20-day rolling VWAP column (identical in both backtester modules):
Σ(typical_price·volume)/Σ(volume) with a zero volume sum replaced by NaN. -/
def compute_vwap (highL lowL closeL volumeL : List ℚ) : List (Option ℚ) :=
  let tpv := (List.range closeL.length).map (fun i =>
    ((highL.getD i 0 + lowL.getD i 0 + closeL.getD i 0) / 3) *
      volumeL.getD i 0)
  let num := rollingApply 20 List.sum (tpv.map some)
  let volSum := rollingApply 20 List.sum (volumeL.map some)
  List.zipWith (fun nu vs =>
    match nu, vs with
    | some a, some v => if v = 0 then none else some (a / v)
    | _, _ => none) num volSum

/-- The Bollinger width column of backtester.py:
`(upper − lower) / sma20` with 20-bar SMA and sample deviation bands. -/
def compute_bb_width (F : RealFuns) (closeL : List ℚ) : List (Option ℚ) :=
  let sma20 := rollingApply 20 meanL (closeL.map some)
  let std20 := rollingApply 20 (sampleStd F) (closeL.map some)
  List.zipWith (fun m s =>
    match m, s with
    | some m, some s => some (((m + 2 * s) - (m - 2 * s)) / m)
    | _, _ => none) sma20 std20

/-- The MACD histogram column of backtester.py: EMA12 − EMA26 minus its own
9-span EMA; defined on every row. -/
def compute_macd_hist (closeL : List ℚ) : List (Option ℚ) :=
  let ema12 := ewmMean 12 closeL
  let ema26 := ewmMean 26 closeL
  let line := List.zipWith (· - ·) ema12 ema26
  let signal := ewmMean 9 line
  (List.zipWith (· - ·) line signal).map some

/-- The indicator table backtester.py builds over the fetched bars
(lines 270–304), one Row per Bar. backtester_entry_exit.py computes the
EMA9/EMA20/RSI/VWAP subset of the same columns by the same formulas. -/
def mkRows (F : RealFuns) (bars : List Bar) : List Row :=
  let closeL := bars.map Bar.close
  let highL := bars.map Bar.high
  let lowL := bars.map Bar.low
  let volumeL := bars.map Bar.volume
  let ema9C := ewmMean 9 closeL
  let ema20C := ewmMean 20 closeL
  let rsiC := compute_rsi closeL
  let sma50C := rollingApply 50 meanL (closeL.map some)
  let macdC := compute_macd_hist closeL
  let bbC := compute_bb_width F closeL
  let vwapC := compute_vwap highL lowL closeL volumeL
  let hvolC := compute_historical_vol F closeL
  let atrC := compute_atr highL lowL closeL
  (List.range bars.length).map (fun i =>
    { close := closeL.getD i 0
      rsi := rsiC.getD i none
      ema9 := some (ema9C.getD i 0)
      ema20 := some (ema20C.getD i 0)
      sma50 := sma50C.getD i none
      bbWidth := bbC.getD i none
      hvol := hvolC.getD i none
      vwap := vwapC.getD i none
      macdHist := macdC.getD i none
      atr := atrC.getD i none })

/-- backtester.py's warm-up exclusion:
`dropna(subset=["RSI", "EMA_9", "EMA_20", "HVol"])`. -/
def btKeep (r : Row) : Bool :=
  r.rsi.isSome && r.ema9.isSome && r.ema20.isSome && r.hvol.isSome

/-- backtester_entry_exit.py's warm-up exclusion:
`dropna(subset=["RSI", "EMA_9", "EMA_20", "VWAP"])`. -/
def eeKeep (r : Row) : Bool :=
  r.rsi.isSome && r.ema9.isSome && r.ema20.isSome && r.vwap.isSome

/-- backtester.py's post-warm-up data frame. -/
def btProcessed (F : RealFuns) (bars : List Bar) : List Row :=
  (mkRows F bars).filter btKeep

/-- backtester_entry_exit.py's post-warm-up data frame. -/
def eeProcessed (F : RealFuns) (bars : List Bar) : List Row :=
  (mkRows F bars).filter eeKeep

/-- View of a post-warm-up row through backtester_entry_exit.py's loop
reads (`float(row[...])`); the defaults are unreachable because `eeKeep`
guarantees every consumed column is defined. -/
def toEERow (r : Row) : EERow :=
  ⟨r.close, r.rsi.getD 0, r.vwap.getD 0, r.ema9.getD 0, r.ema20.getD 0⟩

/-- The structured `{error, ticker}` record both backtest entry points
return on failure. -/
structure BTError where
  msg : String
  ticker : String
deriving DecidableEq, Repr

/-- `backtest_strategy` from backtester.py: length gates, indicator table,
warm-up exclusion, lookback truncation, walk-forward loop, aggregation.
The source wraps the body in a catch-all `except` returning an error
record; the embedding is a total function, so no failure escapes. -/
def backtest_strategy (F : RealFuns) (strat : Strategy) (ticker : String)
    (lookbackDays targetDte : ℕ) (bars : List Bar) :
    Except BTError BTStats :=
  if bars.isEmpty ∨ bars.length < 60 then
    .error ⟨"Insufficient data for backtest", ticker⟩
  else
    let rows := btProcessed F bars
    if rows.length < 20 then
      .error ⟨"Insufficient data after indicator warmup", ticker⟩
    else
      let rows2 :=
        if lookbackDays < rows.length then
          rows.drop (rows.length - lookbackDays)
        else rows
      let final := btRun F strat targetDte rows2
      .ok (aggregateBT final.totalSignals final.trades)

/-- `backtest_entry_exit` from backtester_entry_exit.py. -/
def backtest_entry_exit (F : RealFuns) (ticker : String)
    (lookbackDays maxHoldDays : ℕ) (bars : List Bar) :
    Except BTError EEStats :=
  if bars.isEmpty ∨ bars.length < 60 then
    .error ⟨"Insufficient data", ticker⟩
  else
    let rows := eeProcessed F bars
    if rows.length < 20 then
      .error ⟨"Insufficient data after warmup", ticker⟩
    else
      let rows2 :=
        if lookbackDays < rows.length then
          rows.drop (rows.length - lookbackDays)
        else rows
      let final := eeRun maxHoldDays (rows2.map toEERow)
      .ok (aggregateEE final.trades)

/-- C1: on every degenerate input (T≤0 or σ≤0 or S≤0 or K≤0) the
Black-Scholes pricing function returns exactly the intrinsic value
(max(0,S−K) for a call, max(0,K−S) for a put), which is never negative;
T=0 is such an input, so the T=0 price is intrinsic exactly. -/
theorem bs_price_degenerate_intrinsic (F : RealFuns) (S K T r sigma : ℚ)
    (ot : OptionType) (h : T ≤ 0 ∨ sigma ≤ 0 ∨ S ≤ 0 ∨ K ≤ 0) :
    bs_price F S K T r sigma ot = intrinsicValue ot S K ∧
      0 ≤ bs_price F S K T r sigma ot := by
  have hv : bs_price F S K T r sigma ot = intrinsicValue ot S K := by
    unfold bs_price intrinsicValue
    rw [if_pos h]
  refine ⟨hv, ?_⟩
  rw [hv]
  cases ot <;> exact le_max_left _ _

/-- Witness for C1 at concrete degenerate input T = 0. -/
theorem bs_price_degenerate_intrinsic_witness :
    bs_price Ftest 100 110 0 (1/20) (3/10) .call = intrinsicValue .call 100 110 ∧
      0 ≤ bs_price Ftest 100 110 0 (1/20) (3/10) .call :=
  bs_price_degenerate_intrinsic Ftest 100 110 0 (1/20) (3/10) .call
    (Or.inl le_rfl)

/-- C2: for every S>0, K>0, T>0, σ>0 and every rate r, put-call parity
holds exactly in real arithmetic: call − put = S − K·e^(−rT). The only
analytic fact used is that the error function is odd, which math.erf is. -/
theorem bs_price_put_call_parity (F : RealFuns)
    (hodd : ∀ x, F.erf (-x) = -F.erf x) (S K T r sigma : ℚ)
    (hS : 0 < S) (hK : 0 < K) (hT : 0 < T) (hsig : 0 < sigma) :
    bs_price F S K T r sigma .call - bs_price F S K T r sigma .put =
      S - K * F.exp (-r * T) := by
  have hcond : ¬(T ≤ 0 ∨ sigma ≤ 0 ∨ S ≤ 0 ∨ K ≤ 0) := by
    push_neg
    exact ⟨hT, hsig, hS, hK⟩
  unfold bs_price
  rw [if_neg hcond, if_neg hcond]
  simp only [norm_cdf]
  set d1 := (F.log (S / K) + (r + sigma ^ 2 / 2) * T) / (sigma * F.sqrt T) with hd1
  set d2 := d1 - sigma * F.sqrt T with hd2
  have h1 : F.erf (-d1 / F.sqrt 2) = -F.erf (d1 / F.sqrt 2) := by
    rw [neg_div]; exact hodd _
  have h2 : F.erf (-d2 / F.sqrt 2) = -F.erf (d2 / F.sqrt 2) := by
    rw [neg_div]; exact hodd _
  rw [h1, h2]
  ring

/-- Witness for C2 at concrete input S=1, K=2, T=1, r=0, σ=1 with the
(odd) zero function standing in for erf. -/
theorem bs_price_put_call_parity_witness :
    bs_price Ftest 1 2 1 0 1 .call - bs_price Ftest 1 2 1 0 1 .put =
      1 - 2 * Ftest.exp (-0 * 1) :=
  bs_price_put_call_parity Ftest (fun x => by simp [Ftest]) 1 2 1 0 1
    one_pos two_pos one_pos one_pos

/-- Concrete sample rows and states used to instantiate theorems. -/
def rowEntryCSP : Row :=
  ⟨100, some 30, some 1, some 1, none, none, some (1/2), none, none, none⟩

/-- A row with RSI 80, used to instantiate theorems. -/
def rowHighRsi : Row :=
  ⟨100, some 80, some 1, some 1, none, none, some (3/10), none, none, none⟩

/-- A row whose historical volatility is NaN, used to instantiate
theorems. -/
def rowNanHvol : Row :=
  ⟨100, some 30, some 1, some 1, none, none, none, none, none, none⟩

/-- A previous-day entry/exit row with EMA9 strictly below EMA20. -/
def eeRowPrev : EERow := ⟨100, 50, 100, 49, 50⟩

/-- A current-day entry/exit row satisfying all three entry clauses. -/
def eeRowCur : EERow := ⟨90, 30, 100, 51, 50⟩

/-- A backtester.py state holding an open position. -/
def btInPos : BTState := ⟨[], true, 100, 3/10, 0, 1⟩

/-- An entry/exit state holding an open position. -/
def eeInPos : EEState := ⟨[], true, 100, 0⟩

/-- C3 counterexample: on a day where RSI<35, price<VWAP, the previous day
has EMA9 = EMA20 (so EMA9≤EMA20 as the claim words the crossover) and the
current day has EMA9>EMA20, the code does NOT enter: its crossover test is
strict on the previous day (`ema9_prev < ema20_prev`). -/
theorem ee_entry_crossover_counterexample :
    ((30 : ℚ) < 35 ∧ (90 : ℚ) < 100 ∧ (50 : ℚ) ≤ 50 ∧ (51 : ℚ) > 50) ∧
      (eeStep 30 initEE ⟨100, 50, 100, 50, 50⟩ ⟨90, 30, 100, 51, 50⟩).inPos =
        false := by
  decide

/-- C3 (amended): in backtest_entry_exit, a FLAT → IN_POSITION entry fires
exactly when RSI<35 AND price<VWAP AND EMA9 crosses above EMA20, the
crossover requiring EMA9 strictly below EMA20 on the previous day and
EMA9>EMA20 on the current day. -/
theorem ee_entry_characterization (maxHoldDays : ℕ) (s : EEState)
    (prev row : EERow) (h : s.inPos = false) :
    (eeStep maxHoldDays s prev row).inPos = true ↔
      (row.rsi < 35 ∧ row.close < row.vwap ∧
        prev.ema9 < prev.ema20 ∧ row.ema9 > row.ema20) := by
  simp only [eeStep, h, Bool.not_false, if_true]
  split
  next hc =>
    simp only [Bool.and_eq_true, decide_eq_true_eq] at hc
    simp only [true_iff]
    tauto
  next hc =>
    simp only [Bool.and_eq_true, decide_eq_true_eq] at hc
    rw [h]
    simp only [Bool.false_eq_true, false_iff]
    tauto

/-- Witness for C3's amended theorem at a concrete crossing day. -/
theorem ee_entry_characterization_witness :
    (eeStep 30 initEE eeRowPrev eeRowCur).inPos = true ↔
      (eeRowCur.rsi < 35 ∧ eeRowCur.close < eeRowCur.vwap ∧
        eeRowPrev.ema9 < eeRowPrev.ema20 ∧ eeRowCur.ema9 > eeRowCur.ema20) :=
  ee_entry_characterization 30 initEE eeRowPrev eeRowCur rfl

/-- The strategy-specific reversal exits backtester.py actually applies:
RSI>70 only for BULL_CALL_SPREAD and COVERED_CALL, RSI<35 only for
BEAR_CALL_SPREAD, with a Python-truthiness guard skipping RSI = 0. -/
theorem reversal_exit_iff (strat : Strategy) (row : Row) :
    reversal_exit strat row = true ↔
      (((strat = .BULL_CALL_SPREAD ∨ strat = .COVERED_CALL) ∧
          ∃ v, row.rsi = some v ∧ v ≠ 0 ∧ v > 70) ∨
        (strat = .BEAR_CALL_SPREAD ∧
          ∃ v, row.rsi = some v ∧ v ≠ 0 ∧ v < 35)) := by
  cases strat <;> cases hr : row.rsi <;>
    simp [reversal_exit, cellSat, hr, and_assoc]

/-- C4 counterexample: CASH_SECURED_PUT is a bullish strategy (the repo's
own strategy metadata labels it "bullish on dip"), yet with a position open
and RSI = 80 > 70 on a day before the holding cap, backtester.py does not
exit: the RSI-reversal exit is wired only to BULL_CALL_SPREAD,
COVERED_CALL and BEAR_CALL_SPREAD. -/
theorem bt_exit_bullish_counterexample :
    ((80 : ℚ) > 70) ∧
      (btStep Ftest .CASH_SECURED_PUT 30 btInPos rowHighRsi
          rowHighRsi).inTrade = true ∧
      (btStep Ftest .CASH_SECURED_PUT 30 btInPos rowHighRsi
          rowHighRsi).trades = [] := by
  refine ⟨by norm_num, ?_, ?_⟩ <;> rfl

/-- C4 (amended): with a position open, backtest_strategy exits exactly
when holding_days_elapsed ≥ target_dte, or the strategy is
BULL_CALL_SPREAD or COVERED_CALL and RSI>70 (RSI ≠ 0), or the strategy is
BEAR_CALL_SPREAD and RSI<35 (RSI ≠ 0); the other four strategies have no
reversal exit. -/
theorem bt_exit_characterization (F : RealFuns) (strat : Strategy)
    (targetDte : ℕ) (s : BTState) (prevRow row : Row)
    (h : s.inTrade = true) :
    (btStep F strat targetDte s prevRow row).inTrade = false ↔
      (targetDte ≤ s.holdDays + 1 ∨
        ((strat = .BULL_CALL_SPREAD ∨ strat = .COVERED_CALL) ∧
          ∃ v, row.rsi = some v ∧ v ≠ 0 ∧ v > 70) ∨
        (strat = .BEAR_CALL_SPREAD ∧
          ∃ v, row.rsi = some v ∧ v ≠ 0 ∧ v < 35)) := by
  simp only [btStep, h, Bool.not_true, Bool.false_eq_true, if_false]
  by_cases hex :
      (decide (s.holdDays + 1 ≥ targetDte) || reversal_exit strat row) = true
  · rw [if_pos hex]
    simp only [Bool.or_eq_true, decide_eq_true_eq] at hex
    have hrhs : targetDte ≤ s.holdDays + 1 ∨
        ((strat = .BULL_CALL_SPREAD ∨ strat = .COVERED_CALL) ∧
          ∃ v, row.rsi = some v ∧ v ≠ 0 ∧ v > 70) ∨
        (strat = .BEAR_CALL_SPREAD ∧
          ∃ v, row.rsi = some v ∧ v ≠ 0 ∧ v < 35) := by
      rcases hex with hd | hrev
      · exact Or.inl hd
      · exact Or.inr ((reversal_exit_iff strat row).mp hrev)
    split <;> simp [hrhs]
  · rw [if_neg hex]
    simp only [Bool.or_eq_true, decide_eq_true_eq, not_or] at hex
    simp only [h, Bool.true_eq_false, false_iff, not_or]
    refine ⟨hex.1, ?_, ?_⟩
    · intro hc
      exact hex.2 ((reversal_exit_iff strat row).mpr (Or.inl hc))
    · intro hc
      exact hex.2 ((reversal_exit_iff strat row).mpr (Or.inr hc))

/-- Witness for C4's amended theorem: BEAR_CALL_SPREAD in position with
RSI = 30 exits on the reversal signal. -/
theorem bt_exit_characterization_witness :
    (btStep Ftest .BEAR_CALL_SPREAD 30 btInPos rowEntryCSP
        rowEntryCSP).inTrade = false ↔
      (30 ≤ btInPos.holdDays + 1 ∨
        ((Strategy.BEAR_CALL_SPREAD = .BULL_CALL_SPREAD ∨
            Strategy.BEAR_CALL_SPREAD = .COVERED_CALL) ∧
          ∃ v, rowEntryCSP.rsi = some v ∧ v ≠ 0 ∧ v > 70) ∨
        (Strategy.BEAR_CALL_SPREAD = .BEAR_CALL_SPREAD ∧
          ∃ v, rowEntryCSP.rsi = some v ∧ v ≠ 0 ∧ v < 35)) :=
  bt_exit_characterization Ftest .BEAR_CALL_SPREAD 30 btInPos rowEntryCSP
    rowEntryCSP rfl

/-- C5: for every options strategy and all inputs, the P&L simulator prices
the legs at entry with T_entry = target_dte/365 and re-prices the same legs
at exit with T_exit = max(1/365, T_entry·0.4): the source's
`T_entry − target_dte/365·0.6` is exactly `T_entry·0.4`. The simulator
takes no holding-day input at all, so the exit time is a fixed heuristic
independent of the days actually held. -/
theorem simulate_pnl_exit_time_heuristic (F : RealFuns) (strat : Strategy)
    (entryPrice exitPrice sigma : ℚ) (targetDte : ℕ) (r : ℚ) :
    simulate_strategy_pnl F strat entryPrice exitPrice sigma targetDte r =
      simulate_strategy_pnl_specT F strat entryPrice exitPrice sigma
        targetDte r := by
  have hT : (targetDte : ℚ) / 365 - ((targetDte : ℚ) / 365 * (6/10)) =
      (targetDte : ℚ) / 365 * (4/10) := by ring
  simp only [simulate_strategy_pnl, simulate_strategy_pnl_specT, hT]

/-- C6: both simulators hold at most one position at a time. From FLAT a
step emits no trade (it can only open the single position); from
IN_POSITION a step either keeps exactly that position (same entry, no new
trade) or returns to FLAT — it never opens a second one. -/
theorem single_position_invariant (F : RealFuns) (strat : Strategy)
    (targetDte maxHoldDays : ℕ) (sF sP : BTState) (tF tP : EEState)
    (prevRow row : Row) (eprev erow : EERow)
    (hF : sF.inTrade = false) (hP : sP.inTrade = true)
    (hFe : tF.inPos = false) (hPe : tP.inPos = true) :
    (btStep F strat targetDte sF prevRow row).trades = sF.trades ∧
      ((btStep F strat targetDte sP prevRow row).inTrade = true ∧
          (btStep F strat targetDte sP prevRow row).trades = sP.trades ∧
          (btStep F strat targetDte sP prevRow row).entryPrice =
            sP.entryPrice ∨
        (btStep F strat targetDte sP prevRow row).inTrade = false) ∧
      (eeStep maxHoldDays tF eprev erow).trades = tF.trades ∧
      ((eeStep maxHoldDays tP eprev erow).inPos = true ∧
          (eeStep maxHoldDays tP eprev erow).trades = tP.trades ∧
          (eeStep maxHoldDays tP eprev erow).entryPrice = tP.entryPrice ∨
        (eeStep maxHoldDays tP eprev erow).inPos = false) := by
  refine ⟨?_, ?_, ?_, ?_⟩
  · simp only [btStep, hF, Bool.not_false, if_true]
    split
    · split <;> rfl
    · rfl
  · simp only [btStep, hP, Bool.not_true, Bool.false_eq_true, if_false]
    split
    · split <;> exact Or.inr rfl
    · exact Or.inl ⟨rfl, rfl, rfl⟩
  · simp only [eeStep, hFe, Bool.not_false, if_true]
    split <;> rfl
  · simp only [eeStep, hPe, Bool.not_true, Bool.false_eq_true, if_false]
    split
    · exact Or.inr rfl
    · exact Or.inl ⟨rfl, rfl, rfl⟩

/-- Witness for C6 at concrete states and rows. -/
theorem single_position_invariant_witness :
    (btStep Ftest .CASH_SECURED_PUT 30 initBT rowEntryCSP
        rowEntryCSP).trades = initBT.trades ∧
      ((btStep Ftest .CASH_SECURED_PUT 30 btInPos rowEntryCSP
            rowEntryCSP).inTrade = true ∧
          (btStep Ftest .CASH_SECURED_PUT 30 btInPos rowEntryCSP
              rowEntryCSP).trades = btInPos.trades ∧
          (btStep Ftest .CASH_SECURED_PUT 30 btInPos rowEntryCSP
              rowEntryCSP).entryPrice = btInPos.entryPrice ∨
        (btStep Ftest .CASH_SECURED_PUT 30 btInPos rowEntryCSP
            rowEntryCSP).inTrade = false) ∧
      (eeStep 30 initEE eeRowPrev eeRowCur).trades = initEE.trades ∧
      ((eeStep 30 eeInPos eeRowPrev eeRowCur).inPos = true ∧
          (eeStep 30 eeInPos eeRowPrev eeRowCur).trades = eeInPos.trades ∧
          (eeStep 30 eeInPos eeRowPrev eeRowCur).entryPrice =
            eeInPos.entryPrice ∨
        (eeStep 30 eeInPos eeRowPrev eeRowCur).inPos = false) :=
  single_position_invariant Ftest .CASH_SECURED_PUT 30 30 initBT btInPos
    initEE eeInPos rowEntryCSP rowEntryCSP eeRowPrev eeRowCur
    rfl rfl rfl rfl

/-- C7: each backtest entry point returns a structured {error, ticker}
result exactly when the input series is empty, shorter than 60 bars, or
leaves fewer than 20 rows after indicator warm-up; on every other input it
returns an ok statistics record. The embedding is a total function,
mirroring the source's catch-all handler: no input raises. -/
theorem insufficiency_error_characterization (F : RealFuns)
    (strat : Strategy) (ticker : String)
    (lookbackDays targetDte maxHoldDays : ℕ) (bars : List Bar) :
    ((∃ e, backtest_strategy F strat ticker lookbackDays targetDte bars =
          .error e ∧ e.ticker = ticker) ↔
        (bars.isEmpty = true ∨ bars.length < 60 ∨
          (btProcessed F bars).length < 20)) ∧
      ((∃ e, backtest_entry_exit F ticker lookbackDays maxHoldDays bars =
          .error e ∧ e.ticker = ticker) ↔
        (bars.isEmpty = true ∨ bars.length < 60 ∨
          (eeProcessed F bars).length < 20)) := by
  constructor
  · simp only [backtest_strategy]
    by_cases h1 : bars.isEmpty = true ∨ bars.length < 60
    · rw [if_pos h1]
      constructor
      · intro _
        tauto
      · intro _
        exact ⟨⟨"Insufficient data for backtest", ticker⟩, rfl, rfl⟩
    · rw [if_neg h1]
      by_cases h2 : (btProcessed F bars).length < 20
      · rw [if_pos h2]
        constructor
        · intro _
          tauto
        · intro _
          exact ⟨⟨"Insufficient data after indicator warmup", ticker⟩,
            rfl, rfl⟩
      · rw [if_neg h2]
        constructor
        · rintro ⟨e, he, -⟩
          exact absurd he (by simp)
        · intro hr
          rcases hr with hr | hr | hr
          · exact absurd (Or.inl hr) h1
          · exact absurd (Or.inr hr) h1
          · exact absurd hr h2
  · simp only [backtest_entry_exit]
    by_cases h1 : bars.isEmpty = true ∨ bars.length < 60
    · rw [if_pos h1]
      constructor
      · intro _
        tauto
      · intro _
        exact ⟨⟨"Insufficient data", ticker⟩, rfl, rfl⟩
    · rw [if_neg h1]
      by_cases h2 : (eeProcessed F bars).length < 20
      · rw [if_pos h2]
        constructor
        · intro _
          tauto
        · intro _
          exact ⟨⟨"Insufficient data after warmup", ticker⟩, rfl, rfl⟩
      · rw [if_neg h2]
        constructor
        · rintro ⟨e, he, -⟩
          exact absurd he (by simp)
        · intro hr
          rcases hr with hr | hr | hr
          · exact absurd (Or.inl hr) h1
          · exact absurd (Or.inr hr) h1
          · exact absurd hr h2

/-- A two-trade list with gross profit 1 and gross loss 3. -/
def tradesCX : List Trade := [⟨100, 110, 5, 1, 10⟩, ⟨100, 70, 5, -3, -30⟩]

/-- C8 counterexample: with one winner (pnl 1) and one loser (pnl −3) the
reported profit factor is round(1/3, 2) = 0.33, not gross_profit/gross_loss
= 1/3 exactly — the source rounds to two decimals. -/
theorem aggregate_profit_factor_counterexample :
    grossProfitOf tradesCX = 1 ∧ grossLossOf tradesCX = 3 ∧
      (aggregateBT 2 tradesCX).profitFactor = .val (33/100) ∧
      (33/100 : ℚ) ≠ 1 / 3 := by
  have h1 : grossProfitOf tradesCX = 1 := by
    norm_num [grossProfitOf, winsOf, tradesCX]
  have h2 : grossLossOf tradesCX = 3 := by
    norm_num [grossLossOf, lossesOf, tradesCX]
  refine ⟨h1, h2, ?_, by norm_num⟩
  have h3 : tradesCX.isEmpty = false := rfl
  simp only [aggregateBT, h1, h2, h3, Bool.false_eq_true, if_false]
  norm_num [roundTo, roundHalfEven]

/-- C8 (amended): for every non-empty trade list, win_rate equals
wins/trades_taken exactly; profit_factor equals gross_profit/gross_loss
rounded to two decimals whenever gross_loss > 0 (gross_loss from losing
trades only), and the +infinity sentinel whenever gross_loss = 0 — also
when gross_profit is 0. Both aggregators behave identically. -/
theorem aggregate_winrate_profit_factor (totalSignals : ℕ)
    (trades : List Trade) (etrades : List EETrade)
    (h : trades ≠ []) (he : etrades ≠ []) :
    (aggregateBT totalSignals trades).winRate =
      ((aggregateBT totalSignals trades).wins : ℚ) /
        ((aggregateBT totalSignals trades).tradesTaken : ℚ) ∧
      (0 < grossLossOf trades →
        (aggregateBT totalSignals trades).profitFactor =
          .val (roundTo 2 (grossProfitOf trades / grossLossOf trades))) ∧
      (grossLossOf trades = 0 →
        (aggregateBT totalSignals trades).profitFactor = .inf) ∧
      (aggregateEE etrades).winRate =
        ((aggregateEE etrades).wins : ℚ) /
          ((aggregateEE etrades).tradesTaken : ℚ) ∧
      (0 < eeGrossLossOf etrades →
        (aggregateEE etrades).profitFactor =
          .val (roundTo 2 (eeGrossProfitOf etrades / eeGrossLossOf etrades))) ∧
      (eeGrossLossOf etrades = 0 →
        (aggregateEE etrades).profitFactor = .inf) := by
  have hne : trades.isEmpty = false := by
    cases trades with
    | nil => exact absurd rfl h
    | cons a l => rfl
  have hene : etrades.isEmpty = false := by
    cases etrades with
    | nil => exact absurd rfl he
    | cons a l => rfl
  refine ⟨?_, ?_, ?_, ?_, ?_, ?_⟩
  · simp [aggregateBT, hne]
  · intro h0
    simp [aggregateBT, hne, if_pos h0]
  · intro h0
    simp [aggregateBT, hne, h0]
  · simp [aggregateEE, hene]
  · intro h0
    simp [aggregateEE, hene, if_pos h0]
  · intro h0
    simp [aggregateEE, hene, h0]

/-- A one-trade list of a single winner. -/
def tradesW : List Trade := [⟨100, 110, 5, 1, 10⟩]

/-- A one-trade entry/exit list of a single winner. -/
def etradesW : List EETrade := [⟨100, 110, 5, 1, 10, true⟩]

/-- Witness for C8's amended theorem on concrete one-trade lists. -/
theorem aggregate_winrate_profit_factor_witness :
    (aggregateBT 1 tradesW).winRate =
      ((aggregateBT 1 tradesW).wins : ℚ) /
        ((aggregateBT 1 tradesW).tradesTaken : ℚ) ∧
      (0 < grossLossOf tradesW →
        (aggregateBT 1 tradesW).profitFactor =
          .val (roundTo 2 (grossProfitOf tradesW / grossLossOf tradesW))) ∧
      (grossLossOf tradesW = 0 →
        (aggregateBT 1 tradesW).profitFactor = .inf) ∧
      (aggregateEE etradesW).winRate =
        ((aggregateEE etradesW).wins : ℚ) /
          ((aggregateEE etradesW).tradesTaken : ℚ) ∧
      (0 < eeGrossLossOf etradesW →
        (aggregateEE etradesW).profitFactor =
          .val (roundTo 2 (eeGrossProfitOf etradesW / eeGrossLossOf etradesW))) ∧
      (eeGrossLossOf etradesW = 0 →
        (aggregateEE etradesW).profitFactor = .inf) :=
  aggregate_winrate_profit_factor 1 tradesW etradesW (by decide) (by decide)

/-- Processing one more day at the end of the series is one more step from
the final state, with the old last row as previous day. -/
theorem btWalk_append (F : RealFuns) (strat : Strategy) (targetDte : ℕ)
    (s : BTState) (prev : Row) (rows : List Row) (r : Row) :
    btWalk F strat targetDte s prev (rows ++ [r]) =
      btStep F strat targetDte (btWalk F strat targetDte s prev rows)
        (rows.getLastD prev) r := by
  induction rows generalizing s prev with
  | nil => rfl
  | cons x xs ih =>
      rw [List.cons_append, List.getLastD_cons]
      exact ih (btStep F strat targetDte s prev x) x

/-- Entry/exit analogue of `btWalk_append`. -/
theorem eeWalk_append (maxHoldDays : ℕ) (s : EEState) (prev : EERow)
    (rows : List EERow) (r : EERow) :
    eeWalk maxHoldDays s prev (rows ++ [r]) =
      eeStep maxHoldDays (eeWalk maxHoldDays s prev rows)
        (rows.getLastD prev) r := by
  induction rows generalizing s prev with
  | nil => rfl
  | cons x xs ih =>
      rw [List.cons_append, List.getLastD_cons]
      exact ih (eeStep maxHoldDays s prev x) x

/-- A step taken from FLAT emits no trade in backtester.py. -/
theorem btStep_flat_trades (F : RealFuns) (strat : Strategy)
    (targetDte : ℕ) (s : BTState) (p c : Row) (h : s.inTrade = false) :
    (btStep F strat targetDte s p c).trades = s.trades := by
  simp only [btStep, h, Bool.not_false, if_true]
  split
  · split <;> rfl
  · rfl

/-- A step taken from FLAT emits no trade in backtester_entry_exit.py. -/
theorem eeStep_flat_trades (maxHoldDays : ℕ) (s : EEState) (p c : EERow)
    (h : s.inPos = false) :
    (eeStep maxHoldDays s p c).trades = s.trades := by
  simp only [eeStep, h, Bool.not_false, if_true]
  split <;> rfl

/-- C9: if the series ends on a day that opens a position (the final state
was FLAT and the appended day enters), the run over the extended series
produces exactly the same trade list as without that day: the open position
is dropped, never force-closed into a TradeRecord, and the trade-derived
aggregate statistics are unchanged. Holds for both simulators. -/
theorem open_position_dropped (F : RealFuns) (strat : Strategy)
    (targetDte maxHoldDays : ℕ) (rows : List Row) (prev0 r : Row)
    (erows : List EERow) (eprev0 er : EERow)
    (h1 : (btWalk F strat targetDte initBT prev0 rows).inTrade = false)
    (h2 : (btStep F strat targetDte
        (btWalk F strat targetDte initBT prev0 rows)
        (rows.getLastD prev0) r).inTrade = true)
    (h3 : (eeWalk maxHoldDays initEE eprev0 erows).inPos = false)
    (h4 : (eeStep maxHoldDays (eeWalk maxHoldDays initEE eprev0 erows)
        (erows.getLastD eprev0) er).inPos = true) :
    (btWalk F strat targetDte initBT prev0 (rows ++ [r])).trades =
        (btWalk F strat targetDte initBT prev0 rows).trades ∧
      (btWalk F strat targetDte initBT prev0 (rows ++ [r])).inTrade =
        true ∧
      (∀ n, aggregateBT n
          (btWalk F strat targetDte initBT prev0 (rows ++ [r])).trades =
        aggregateBT n
          (btWalk F strat targetDte initBT prev0 rows).trades) ∧
      (eeWalk maxHoldDays initEE eprev0 (erows ++ [er])).trades =
        (eeWalk maxHoldDays initEE eprev0 erows).trades ∧
      (eeWalk maxHoldDays initEE eprev0 (erows ++ [er])).inPos = true ∧
      aggregateEE (eeWalk maxHoldDays initEE eprev0 (erows ++ [er])).trades =
        aggregateEE (eeWalk maxHoldDays initEE eprev0 erows).trades := by
  refine ⟨?_, ?_, ?_, ?_, ?_, ?_⟩
  · rw [btWalk_append]
    exact btStep_flat_trades F strat targetDte _ _ _ h1
  · rw [btWalk_append]
    exact h2
  · intro n
    rw [btWalk_append, btStep_flat_trades F strat targetDte _ _ _ h1]
  · rw [eeWalk_append]
    exact eeStep_flat_trades maxHoldDays _ _ _ h3
  · rw [eeWalk_append]
    exact h4
  · rw [eeWalk_append, eeStep_flat_trades maxHoldDays _ _ _ h3]

/-- Witness for C9: empty prior series, entry day appended at the end. -/
theorem open_position_dropped_witness :
    (btWalk Ftest .CASH_SECURED_PUT 30 initBT rowEntryCSP
        ([] ++ [rowEntryCSP])).trades =
        (btWalk Ftest .CASH_SECURED_PUT 30 initBT rowEntryCSP []).trades ∧
      (btWalk Ftest .CASH_SECURED_PUT 30 initBT rowEntryCSP
          ([] ++ [rowEntryCSP])).inTrade = true ∧
      (∀ n, aggregateBT n (btWalk Ftest .CASH_SECURED_PUT 30 initBT
          rowEntryCSP ([] ++ [rowEntryCSP])).trades =
        aggregateBT n (btWalk Ftest .CASH_SECURED_PUT 30 initBT
          rowEntryCSP []).trades) ∧
      (eeWalk 30 initEE eeRowPrev ([] ++ [eeRowCur])).trades =
        (eeWalk 30 initEE eeRowPrev []).trades ∧
      (eeWalk 30 initEE eeRowPrev ([] ++ [eeRowCur])).inPos = true ∧
      aggregateEE (eeWalk 30 initEE eeRowPrev ([] ++ [eeRowCur])).trades =
        aggregateEE (eeWalk 30 initEE eeRowPrev []).trades :=
  open_position_dropped Ftest .CASH_SECURED_PUT 30 30 [] rowEntryCSP
    rowEntryCSP [] eeRowPrev eeRowCur rfl
    (by norm_num [btWalk, btStep, check_entry_conditions, cellSat,
      rowEntryCSP, initBT])
    rfl (by decide)

/-- 1 when a position is open, 0 when FLAT. -/
def openBit (s : BTState) : ℕ := if s.inTrade then 1 else 0

/-- Every backtester.py step preserves
`trades.length + openBit ≤ totalSignals`: an entry increments the signal
count (whether or not the volatility floor then admits it), and an exit
converts the open position into one trade. -/
theorem btStep_signal_invariant (F : RealFuns) (strat : Strategy)
    (targetDte : ℕ) (s : BTState) (p c : Row)
    (h : s.trades.length + openBit s ≤ s.totalSignals) :
    (btStep F strat targetDte s p c).trades.length +
        openBit (btStep F strat targetDte s p c) ≤
      (btStep F strat targetDte s p c).totalSignals := by
  by_cases hin : s.inTrade = true
  · have hb : (!s.inTrade) = false := by rw [hin]; rfl
    simp only [openBit, hin, if_true] at h
    simp only [btStep, hb, Bool.false_eq_true, if_false]
    split
    · split
      · simp only [openBit, List.length_append, List.length_cons,
          List.length_nil, Bool.false_eq_true, if_false]
        omega
      · simp only [openBit, Bool.false_eq_true, if_false]
        omega
    · simp only [openBit, hin, if_true]
      omega
  · have hfalse : s.inTrade = false := by
      cases hs : s.inTrade
      · rfl
      · exact absurd hs hin
    have hb : (!s.inTrade) = true := by rw [hfalse]; rfl
    simp only [openBit, hfalse, Bool.false_eq_true, if_false] at h
    simp only [btStep, hb, if_true]
    split
    · split
      · simp only [openBit, if_true]
        omega
      · simp only [openBit, hfalse, Bool.false_eq_true, if_false]
        omega
    · simp only [openBit, hfalse, Bool.false_eq_true, if_false]
      omega

/-- The walk-forward loop preserves the signal-count invariant. -/
theorem btWalk_signal_invariant (F : RealFuns) (strat : Strategy)
    (targetDte : ℕ) (rows : List Row) (s : BTState) (p : Row)
    (h : s.trades.length + openBit s ≤ s.totalSignals) :
    (btWalk F strat targetDte s p rows).trades.length +
        openBit (btWalk F strat targetDte s p rows) ≤
      (btWalk F strat targetDte s p rows).totalSignals := by
  induction rows generalizing s p with
  | nil => exact h
  | cons x xs ih =>
      exact ih (btStep F strat targetDte s p x) x
        (btStep_signal_invariant F strat targetDte s p x h)

/-- C10: from FLAT, a day whose entry condition holds always increments
total_signals by one — also when the entry is then rejected by the σ>0.05
sanity floor, which leaves the state FLAT with no trade; a NaN historical
volatility is replaced by 0.30 (which passes the floor) before the check;
and consequently every run reports trades_taken ≤ total_signals. -/
theorem total_signals_dominate (F : RealFuns) (strat : Strategy)
    (targetDte : ℕ) (s : BTState) (prevRow row : Row) (rows : List Row)
    (hflat : s.inTrade = false)
    (hcond : check_entry_conditions strat row prevRow = true) :
    (btStep F strat targetDte s prevRow row).totalSignals =
        s.totalSignals + 1 ∧
      (∀ hv, row.hvol = some hv → hv ≤ 5/100 →
        (btStep F strat targetDte s prevRow row).inTrade = false ∧
        (btStep F strat targetDte s prevRow row).trades = s.trades) ∧
      (row.hvol = none →
        (btStep F strat targetDte s prevRow row).inTrade = true ∧
        (btStep F strat targetDte s prevRow row).entrySigma = 3/10) ∧
      (btRun F strat targetDte rows).trades.length ≤
        (btRun F strat targetDte rows).totalSignals := by
  have hb : (!s.inTrade) = true := by rw [hflat]; rfl
  refine ⟨?_, ?_, ?_, ?_⟩
  · simp only [btStep, hb, if_true, hcond]
    split <;> rfl
  · intro hv hhv hle
    simp only [btStep, hb, if_true, hcond, hhv]
    rw [if_neg (by exact not_lt.mpr hle)]
    exact ⟨hflat, rfl⟩
  · intro hnone
    simp only [btStep, hb, if_true, hcond, hnone]
    rw [if_pos (by norm_num)]
    exact ⟨rfl, rfl⟩
  · cases rows with
    | nil => exact le_refl 0
    | cons r0 rest =>
        have h0 : initBT.trades.length + openBit initBT ≤
            initBT.totalSignals := by
          simp [initBT, openBit]
        have hw := btWalk_signal_invariant F strat targetDte rest initBT r0 h0
        simp only [btRun]
        omega

/-- A PROTECTIVE_PUT entry day whose historical volatility is NaN. -/
def rowPPnanHvol : Row :=
  ⟨100, some 80, some 1, some 1, some 50, none, none, none, none, none⟩

/-- Witness for C10 on a concrete NaN-volatility entry day. -/
theorem total_signals_dominate_witness :
    (btStep Ftest .PROTECTIVE_PUT 30 initBT rowPPnanHvol
        rowPPnanHvol).totalSignals = initBT.totalSignals + 1 ∧
      (∀ hv, rowPPnanHvol.hvol = some hv → hv ≤ 5/100 →
        (btStep Ftest .PROTECTIVE_PUT 30 initBT rowPPnanHvol
          rowPPnanHvol).inTrade = false ∧
        (btStep Ftest .PROTECTIVE_PUT 30 initBT rowPPnanHvol
          rowPPnanHvol).trades = initBT.trades) ∧
      (rowPPnanHvol.hvol = none →
        (btStep Ftest .PROTECTIVE_PUT 30 initBT rowPPnanHvol
          rowPPnanHvol).inTrade = true ∧
        (btStep Ftest .PROTECTIVE_PUT 30 initBT rowPPnanHvol
          rowPPnanHvol).entrySigma = 3/10) ∧
      (btRun Ftest .PROTECTIVE_PUT 30 []).trades.length ≤
        (btRun Ftest .PROTECTIVE_PUT 30 []).totalSignals :=
  total_signals_dominate Ftest .PROTECTIVE_PUT 30 initBT rowPPnanHvol
    rowPPnanHvol [] rfl (by decide)
